import Mathlib

/-!
Shallow embedding of `dogtail/distro.py`: the package-database abstraction
and distribution-detection subsystem.

Python strings are modelled as Lean `String`; results of external library
calls and subprocess invocations (the rpm database, the apt cache, the
portage vartree, `dpkg -L` / `jhbuild list` output lines, filesystem
marker probes and environment variables) are explicit inputs to the
embedded functions.  Python exceptions are modelled with `Except`.
-/

/-- Errors raised by package-database queries.  `packageNotFound` models the
repository's `PackageNotFoundError`; `notImplemented` models Python's
`NotImplementedError`; `indexError`, `typeError` and `attributeError` model
raw Python exceptions escaping from backend code. -/
inductive PkgError where
  | packageNotFound (name : String)
  | notImplemented
  | indexError
  | typeError
  | attributeError
deriving Repr, DecidableEq

/-- Error raised by `detectDistro`: models `DistributionNotSupportedError`,
carrying the distro label passed to its constructor. -/
inductive DistroError where
  | notSupported (distro : String)
deriving Repr, DecidableEq

/-- Characters stripped by Python's `str.strip()`. -/
def pyIsSpace (c : Char) : Bool :=
  c = ' ' || c = '\t' || c = '\n' || c = '\x0d' || c = '\x0b' || c = '\x0c'

/-- Model of Python's `str.strip()`: drop leading and trailing whitespace. -/
def pyStrip (s : String) : String :=
  String.mk (((s.data.dropWhile pyIsSpace).reverse.dropWhile pyIsSpace).reverse)

/-- Model of Python's `str.split(sep)` for a single-character separator. -/
def pySplit (s : String) (c : Char) : List String :=
  s.split (fun d => d = c)

/-- Model of a Python dict used as a set (`result[key] = None`), kept as a
duplicate-free list of keys: inserting an existing key is a no-op. -/
def dictInsert (d : List String) (k : String) : List String :=
  if k ∈ d then d else d ++ [k]

/-- Whether `needle` occurs as a contiguous sublist of the second list. -/
def hasSub (needle : List Char) : List Char → Bool
  | [] => needle == []
  | c :: t => needle.isPrefixOf (c :: t) || hasSub needle t

/-- Model of `re.match(".*" ++ word, line)` for a literal `word` free of
newlines: the regex matches iff `word` occurs in `line` before any newline
(`.` does not match a newline in Python). -/
def reSearchLiteral (word : String) (line : String) : Bool :=
  hasSub word.data (line.data.takeWhile (fun c => c ≠ '\n'))

/-- Modelled from the spec: the `Version` value type of `dogtail/version.py`,
which is not under `src/` (`distro.py` does `from version import Version`).
Per spec §3 a Version is "an ordered sequence of numeric/alphanumeric
components parsed from a string (e.g., "1.2.3")"; `fromString` splits the
string into its dot-separated components. -/
structure Version where
  components : List String
deriving Repr, DecidableEq

/-- Modelled from the spec: `Version.fromString` parses a version string into
its ordered components. -/
def Version.fromString (s : String) : Version :=
  ⟨pySplit s '.'⟩

/-! ## Distribution detection (`detectDistro`) -/

/-- The distribution kinds `detectDistro` can return (its `Distro`
subclasses, minus Slackware, which is recognised but rejected). -/
inductive DistroKind where
  | Suse
  | Fedora
  | RHEL
  | Ubuntu
  | Debian
  | Gentoo
  | Conary
  | Solaris
  | JHBuild
deriving Repr, DecidableEq

/-- The environment and filesystem state read by `detectDistro`: the
`CERTIFIED_GNOMIE` environment variable (`none` when unset), the existence
of each marker path probed with `os.path.exists`, and the first line of
`/etc/release` (`none` when that file does not exist). -/
structure SysState where
  certifiedGnomie : Option String
  suseRelease : Bool
  fedoraRelease : Bool
  redhatRelease : Bool
  ubuntuMinimalDoc : Bool
  debianVersion : Bool
  gentooRelease : Bool
  slackwareVersion : Bool
  conaryDb : Bool
  etcRelease : Option String
deriving Repr, DecidableEq

/-- Model of `os.environ.get("CERTIFIED_GNOMIE", "no") == "yes"`. -/
def overrideProbe (s : SysState) : Bool :=
  s.certifiedGnomie.getD "no" == "yes"

/-- Model of `os.path.exists("/etc/release") and
re.match(".*Solaris", open("/etc/release").readline())`. -/
def solarisProbe (s : SysState) : Bool :=
  match s.etcRelease with
  | some line => reSearchLiteral "Solaris" line
  | none => false

/-- Embedding of `detectDistro` (distro.py:332-359): the if/elif chain, in
source order.  A `raise` is modelled as `.error`. -/
def detectDistro (s : SysState) : Except DistroError DistroKind :=
  if overrideProbe s then .ok .JHBuild
  else if s.suseRelease then .ok .Suse
  else if s.fedoraRelease then .ok .Fedora
  else if s.redhatRelease then .ok .RHEL
  else if s.ubuntuMinimalDoc then .ok .Ubuntu
  else if s.debianVersion then .ok .Debian
  else if s.gentooRelease then .ok .Gentoo
  else if s.slackwareVersion then .error (.notSupported "Slackware")
  else if s.conaryDb then .ok .Conary
  else if solarisProbe s then .ok .Solaris
  else .error (.notSupported "Unknown")

/-- What a detection rule does when it matches: select a kind, or reject the
platform with a label. -/
inductive RuleOutcome where
  | kind (k : DistroKind)
  | unsupported (label : String)
deriving Repr, DecidableEq

/-- The detection result a matching rule produces. -/
def applyOutcome : RuleOutcome → Except DistroError DistroKind
  | .kind k => .ok k
  | .unsupported label => .error (.notSupported label)

/-- The ten detection rules of `detectDistro`, in source order:
override environment variable, SuSE, Fedora, Red Hat, Ubuntu, Debian,
Gentoo, Slackware, Conary, Solaris. -/
def detectRules : List ((SysState → Bool) × RuleOutcome) :=
  [ (overrideProbe, .kind .JHBuild),
    (fun s => s.suseRelease, .kind .Suse),
    (fun s => s.fedoraRelease, .kind .Fedora),
    (fun s => s.redhatRelease, .kind .RHEL),
    (fun s => s.ubuntuMinimalDoc, .kind .Ubuntu),
    (fun s => s.debianVersion, .kind .Debian),
    (fun s => s.gentooRelease, .kind .Gentoo),
    (fun s => s.slackwareVersion, .unsupported "Slackware"),
    (fun s => s.conaryDb, .kind .Conary),
    (solarisProbe, .kind .Solaris) ]

/-- First-match-wins evaluation of an ordered rule list; when no rule
matches, detection fails with the label "Unknown". -/
def firstMatch : List ((SysState → Bool) × RuleOutcome) → SysState → Except DistroError DistroKind
  | [], _ => .error (.notSupported "Unknown")
  | r :: rest, s => if r.1 s then applyOutcome r.2 else firstMatch rest s

/-! ## The RPM backend (`_RpmPackageDb`) -/

/-- A header of the rpm database: name, version, owned files, requirements
and provided capabilities.  Models the data `_RpmPackageDb` reads through
`rpm.TransactionSet`. -/
structure RpmHeader where
  name : String
  version : String
  filenames : List String
  requires : List String
  provides : List String
deriving Repr, DecidableEq

/-- The rpm database: the list of installed package headers. -/
structure RpmDb where
  headers : List RpmHeader
deriving Repr, DecidableEq

/-- Model of `ts.dbMatch("name", packageName)`: the headers whose name is
`packageName`, in database order. -/
def RpmDb.dbMatchName (db : RpmDb) (packageName : String) : List RpmHeader :=
  db.headers.filter (fun h => h.name = packageName)

/-- Model of `ts.dbMatch("provides", requirement)`: the headers providing
the capability `requirement`. -/
def RpmDb.dbMatchProvides (db : RpmDb) (requirement : String) : List RpmHeader :=
  db.headers.filter (fun h => requirement ∈ h.provides)

/-- Embedding of `_RpmPackageDb.getVersion` (distro.py:98-103): return the
version of the first matching header, else raise `PackageNotFoundError`. -/
def rpmGetVersion (db : RpmDb) (packageName : String) : Except PkgError Version :=
  match db.dbMatchName packageName with
  | header :: _ => .ok (Version.fromString header.version)
  | [] => .error (.packageNotFound packageName)

/-- Embedding of `_RpmPackageDb.getDependencies` (distro.py:112-133): for
the first matching header, resolve every requirement to its providers'
package names, skip the queried package's own name, dedupe via a dict. -/
def rpmGetDependencies (db : RpmDb) (packageName : String) : Except PkgError (List String) :=
  match db.dbMatchName packageName with
  | header :: _ =>
    .ok (header.requires.foldl
      (fun result requirement =>
        (db.dbMatchProvides requirement).foldl
          (fun result depHeader =>
            if depHeader.name ≠ packageName then dictInsert result depHeader.name
            else result)
          result)
      [])
  | [] => .error (.packageNotFound packageName)

/-! ## The APT backend (`_AptPackageDb`) -/

/-- A current version record of an apt cache entry: the version string shown
in `str(package.CurrentVer)` (the text between `Ver:'` and `' Section:`) and
the target package names of the entries of `DependsList['Depends']`. -/
structure AptVer where
  verString : String
  depends : List String
deriving Repr, DecidableEq

/-- An apt cache entry: a package name and its current version record
(`none` models a Python `None` `CurrentVer`, e.g. a known but uninstalled
package). -/
structure AptPackage where
  name : String
  currentVer : Option AptVer
deriving Repr, DecidableEq

/-- Model of `re.match(".*Ver:'(.*)-.*' Section:", str(package.CurrentVer)).group(1)`
applied to the version text `v`: the greedy group captures everything before
the last hyphen of `v`; with no hyphen the regex fails to match and
`.group(1)` on `None` raises an attribute error (`none` here). -/
def aptParseVer (v : String) : Option String :=
  let parts := pySplit v '-'
  if parts.length ≥ 2 then some (String.intercalate "-" parts.dropLast) else none

/-- Embedding of `_AptPackageDb.getVersion` (distro.py:142-153): return on
the first cache entry with the queried name — parsing its current-version
text, where a missing or hyphen-free version makes the regex fail and a raw
attribute error escape — else fall through to `PackageNotFoundError`. -/
def aptGetVersion (cache : List AptPackage) (packageName : String) : Except PkgError Version :=
  match cache.find? (fun p => p.name == packageName) with
  | some package =>
    match package.currentVer with
    | none => .error .attributeError
    | some current =>
      match aptParseVer current.verString with
      | none => .error .attributeError
      | some verString => .ok (Version.fromString verString)
  | none => .error (.packageNotFound packageName)

/-- Embedding of `_AptPackageDb.getFiles` (distro.py:155-165): the lines
are the output of `os.popen('dpkg -L <name>').readlines()`; an empty output
raises `PackageNotFoundError`, otherwise the stripped non-empty lines are
returned in order. -/
def aptGetFiles (cmdOutput : List String) (packageName : String) : Except PkgError (List String) :=
  if cmdOutput = [] then .error (.packageNotFound packageName)
  else .ok (cmdOutput.foldl
    (fun files line =>
      let file := pyStrip line
      if file ≠ "" then files ++ [file] else files)
    [])

/-- The loop of `_AptPackageDb.getDependencies` (distro.py:176-186): every
cache entry with the queried name contributes its dependency targets to the
dict; an entry with no current version raises `PackageNotFoundError`
mid-loop. -/
def aptDepLoop (packageName : String) : List AptPackage → List String → Except PkgError (List String)
  | [], result => .ok result
  | package :: rest, result =>
    if package.name = packageName then
      match package.currentVer with
      | none => .error (.packageNotFound packageName)
      | some current => aptDepLoop packageName rest (current.depends.foldl dictInsert result)
    else aptDepLoop packageName rest result

/-- Embedding of `_AptPackageDb.getDependencies` (distro.py:167-187): run
the loop over the cache starting from an empty dict and return its keys
(an absent name yields an empty list, not an error). -/
def aptGetDependencies (cache : List AptPackage) (packageName : String) : Except PkgError (List String) :=
  aptDepLoop packageName cache []

/-! ## The Portage backend (`_PortagePackageDb`) -/

/-- An installed package atom of the portage vartree:
category, package name and version (rendered `cat/name-version`). -/
structure PortageAtom where
  category : String
  name : String
  version : String
deriving Repr, DecidableEq

/-- Model of the external `portage.db["/"]["vartree"].dbapi.match(packageName)`
for a plain-name query: the rendered atoms of the installed packages with
that name. -/
def portageMatch (vartree : List PortageAtom) (packageName : String) : List String :=
  (vartree.filter (fun a => a.name = packageName)).map
    (fun a => a.category ++ "/" ++ a.name ++ "-" ++ a.version)

/-- Whether a component is a portage revision suffix `rN`.  Part of the
model of the external `portage.pkgsplit`. -/
def isRevisionPart (s : String) : Bool :=
  match s.data with
  | 'r' :: rest => rest ≠ [] && rest.all Char.isDigit
  | _ => false

/-- Model of the external `portage.pkgsplit("name-version(-rN)")`: split on
hyphens, peel an optional trailing revision, require the version component
to begin with a digit; `none` models the Python `None` failure result. -/
def pkgsplit (mypkg : String) : Option (String × String × String) :=
  let parts := pySplit mypkg '-'
  let (nameParts, verPart, rev) :=
    if parts.length ≥ 3 && isRevisionPart (parts.getLastD "") then
      (parts.dropLast.dropLast, parts.dropLast.getLastD "", parts.getLastD "")
    else
      (parts.dropLast, parts.getLastD "", "r0")
  match verPart.data with
  | [] => none
  | c :: _ =>
    if c.isDigit && nameParts ≠ [] then
      some (String.intercalate "-" nameParts, verPart, rev)
    else none

/-- Embedding of `_PortagePackageDb.getVersion` (distro.py:202-217):
`match(packageName)[0]` raises an index error on an empty match list;
`.split('/')[1]` likewise needs a category separator; `pkgsplit(...)[1]`
on a `None` split raises a type error; otherwise the upstream version
component is parsed. -/
def portageGetVersion (vartree : List PortageAtom) (packageName : String) : Except PkgError Version :=
  match portageMatch vartree packageName with
  | [] => .error .indexError
  | atom :: _ =>
    match (pySplit atom '/').get? 1 with
    | none => .error .indexError
    | some gentooPackageName =>
      match pkgsplit gentooPackageName with
      | none => .error .typeError
      | some (_, upstreamVersion, _) => .ok (Version.fromString upstreamVersion)

/-! ## The Conary backend (`_ConaryPackageDb`) -/

/-- Embedding of `_ConaryPackageDb.getVersion` (distro.py:225-231):
`dbVersions` models the external `client.db.getTroveVersionList(packageName)`
result, each element being the trailing-revision string of one trove
version; an empty list raises `PackageNotFoundError`, otherwise the text of
the first entry before its first hyphen is returned (a raw string, not a
`Version`). -/
def conaryGetVersion (dbVersions : List String) (packageName : String) : Except PkgError String :=
  match dbVersions with
  | [] => .error (.packageNotFound packageName)
  | v :: _ => .ok ((pySplit v '-').headD "")

/-! ## The Solaris backend (`_SolarisPackageDb`) and the base class -/

/-- Embedding of `PackageDb.getVersion` (distro.py:48-55): the base class
raises `NotImplementedError`. -/
def basePackageDbGetVersion (_packageName : String) : Except PkgError Version :=
  .error .notImplemented

/-- Embedding of `_SolarisPackageDb.getVersion` (distro.py:238-241):
`_SolarisPackageDb` overrides nothing, so it inherits the base class's
`raise NotImplementedError`. -/
def solarisGetVersion (packageName : String) : Except PkgError Version :=
  basePackageDbGetVersion packageName

/-! ## The JhBuild backend (`JhBuildPackageDb`) -/

/-- Embedding of `JhBuildPackageDb.getDependencies` (distro.py:255-261):
`cmdOutput` models `os.popen('jhbuild list <name>').readlines()`; every
non-empty line's stripped text is added to the dict, whose keys are
returned.  The queried name is not filtered out. -/
def jhbuildGetDependencies (cmdOutput : List String) (_packageName : String) : List String :=
  cmdOutput.foldl
    (fun result line => if line ≠ "" then dictInsert result (pyStrip line) else result)
    []

/-! ## Locale file collection (`PackageDb.getMoFiles`) -/

/-- Model of the directory tree walked by `os.path.walk`: each entry is a
directory path together with the file names it holds.  Paths use `/`
separators and no trailing slash. -/
abbrev FsTree : Type := List (String × List String)

/-- Whether path `p` lies strictly beneath directory `top`: the text
`top ++ "/"` leads `p`. -/
def pathUnder (top p : String) : Bool :=
  (top ++ "/").data.isPrefixOf p.data

/-- Whether directory `d` is in the tree walked from `top`: either `top`
itself or a descendant. -/
def dirUnder (top d : String) : Bool :=
  d == top || pathUnder top d

/-- Model of `re.match('(.*)\.mo', fName)`: matches iff `.mo` occurs in the
file name before any newline. -/
def isMoFileName (fName : String) : Bool :=
  reSearchLiteral ".mo" fName

/-- One `os.path.walk(top, appendIfMoFile, moFiles)` call (distro.py:71-80):
every `.mo`-matching file name in every directory under `top` is added to
the dict keyed by `dirName + '/' + fName`. -/
def walkMoFiles (top : String) (fs : FsTree) (moFiles : List String) : List String :=
  fs.foldl
    (fun moFiles entry =>
      if dirUnder top entry.1 then
        entry.2.foldl
          (fun moFiles fName =>
            if isMoFileName fName then dictInsert moFiles (entry.1 ++ "/" ++ fName)
            else moFiles)
          moFiles
      else moFiles)
    moFiles

/-- Embedding of `PackageDb.getMoFiles` (distro.py:64-82): walk each
configured locale root — narrowed to its `locale` subdirectory when a locale
is given — and return the collected dict keys. -/
def getMoFiles (localeRoots : List String) (locale : Option String) (fs : FsTree) : List String :=
  localeRoots.foldl
    (fun moFiles root =>
      let top := match locale with
        | some loc => root ++ "/" ++ loc
        | none => root
      walkMoFiles top fs moFiles)
    []

/-! ## Helper lemmas -/

theorem mem_dictInsert {d : List String} {k p : String} (hp : p ∈ dictInsert d k) :
    p ∈ d ∨ p = k := by
  unfold dictInsert at hp
  split at hp
  · exact Or.inl hp
  · rcases List.mem_append.1 hp with h | h
    · exact Or.inl h
    · exact Or.inr (List.mem_singleton.1 h)

theorem dictInsert_nodup {d : List String} (hd : d.Nodup) (k : String) :
    (dictInsert d k).Nodup := by
  unfold dictInsert
  split
  · exact hd
  · next h => simpa using List.Nodup.concat h hd

theorem dictInsert_not_mem {d : List String} {k name : String} (hd : name ∉ d)
    (hk : k ≠ name) : name ∉ dictInsert d k := by
  intro hmem
  rcases mem_dictInsert hmem with h | h
  · exact hd h
  · exact hk h.symm

/-- A predicate preserved by every step of a fold holds of its result. -/
theorem foldl_invariant {α β : Type} (P : β → Prop) (f : β → α → β) :
    ∀ (l : List α) (d : β), P d → (∀ d a, a ∈ l → P d → P (f d a)) → P (l.foldl f d)
  | [], _, hd, _ => hd
  | a :: t, d, hd, hf =>
    foldl_invariant P f t (f d a) (hf d a (List.mem_cons_self a t) hd)
      (fun d' a' ha' hd' => hf d' a' (List.mem_cons_of_mem a ha') hd')

/-- When all rules before index `i` fail on `s` and rule `i` matches,
first-match evaluation yields rule `i`'s outcome. -/
theorem firstMatch_earliest :
    ∀ (l : List ((SysState → Bool) × RuleOutcome)) (s : SysState)
      (i : Nat) (hi : i < l.length),
      (l.get ⟨i, hi⟩).1 s = true →
      (∀ (j : Nat) (hj : j < l.length), j < i → (l.get ⟨j, hj⟩).1 s = false) →
      firstMatch l s = applyOutcome (l.get ⟨i, hi⟩).2 := by
  intro l
  induction l with
  | nil => intro s i hi; exact absurd hi (by simp)
  | cons r rest ih =>
    intro s i hi hmatch hearlier
    match i with
    | 0 => simp only [List.get] at hmatch ⊢; simp [firstMatch, hmatch]
    | n + 1 =>
      have h0 : r.1 s = false := hearlier 0 (by simp) (Nat.succ_pos n)
      have hrec := ih s n (by simpa using hi) (by simpa using hmatch)
        (fun j hj hjn => by
          have := hearlier (j + 1) (by simpa using hj) (Nat.succ_lt_succ hjn)
          simpa using this)
      simp only [firstMatch, h0]
      simpa using hrec

/-! ## Concrete states used by witnesses -/

/-- Only the Fedora marker file exists. -/
def fedoraOnlyState : SysState :=
  ⟨none, false, true, false, false, false, false, false, false, none⟩

/-- The override variable is "yes" while every marker also matches. -/
def overrideAllMarkersState : SysState :=
  ⟨some "yes", true, true, true, true, true, true, true, true, some "Solaris 10\n"⟩

/-- No marker file exists and the override variable is unset. -/
def noMarkerState : SysState :=
  ⟨none, false, false, false, false, false, false, false, false, none⟩

/-- Only the Slackware marker file exists. -/
def slackwareOnlyState : SysState :=
  ⟨none, false, false, false, false, false, false, true, false, none⟩

/-- The override variable holds "YES" and the Debian marker exists. -/
def upperYesState : SysState :=
  ⟨some "YES", false, false, false, false, true, false, false, false, none⟩

/-! ## Claim theorems -/

/-- C2: `detectDistro` is first-match-wins evaluation of its ten probes in
the fixed order override-env, SuSE, Fedora, Red Hat, Ubuntu, Debian,
Gentoo, Slackware, Conary, Solaris; whenever a probe matches and all
earlier probes fail, the result is that probe's outcome, so later rules are
never consulted once an earlier one matches. -/
theorem detectDistro_fixed_priority (s : SysState) :
    detectDistro s = firstMatch detectRules s ∧
    ∀ (i : Nat) (hi : i < detectRules.length),
      (detectRules.get ⟨i, hi⟩).1 s = true →
      (∀ (j : Nat) (hj : j < detectRules.length), j < i →
        (detectRules.get ⟨j, hj⟩).1 s = false) →
      detectDistro s = applyOutcome (detectRules.get ⟨i, hi⟩).2 := by
  have heq : detectDistro s = firstMatch detectRules s := rfl
  exact ⟨heq, fun i hi hmatch hearlier =>
    heq.trans (firstMatch_earliest detectRules s i hi hmatch hearlier)⟩

/-- Witness for C2: in a state where only the Fedora marker (rule index 2)
matches, detection returns Fedora. -/
theorem detectDistro_fixed_priority_witness :
    detectDistro fedoraOnlyState = Except.ok DistroKind.Fedora :=
  (detectDistro_fixed_priority fedoraOnlyState).2 2 (by decide) (by decide) (by decide)

/-- C3: whenever the override environment variable `CERTIFIED_GNOMIE` holds
the affirmative value "yes", `detectDistro` returns JHBuild, whatever the
marker files say. -/
theorem detectDistro_override_wins (s : SysState)
    (h : s.certifiedGnomie = some "yes") :
    detectDistro s = Except.ok DistroKind.JHBuild := by
  have hov : overrideProbe s = true := by simp [overrideProbe, h]
  simp [detectDistro, hov]

/-- Witness for C3: the override is "yes" while every marker file is also
present, and detection still returns JHBuild. -/
theorem detectDistro_override_wins_witness :
    detectDistro overrideAllMarkersState = Except.ok DistroKind.JHBuild :=
  detectDistro_override_wins overrideAllMarkersState rfl

/-- C5: when no probe matches — the override is not the affirmative value
and every marker probe fails — `detectDistro` raises
`DistributionNotSupportedError` with the label "Unknown" rather than
returning any kind. -/
theorem detectDistro_no_match_unknown (s : SysState)
    (h0 : overrideProbe s = false) (h1 : s.suseRelease = false)
    (h2 : s.fedoraRelease = false) (h3 : s.redhatRelease = false)
    (h4 : s.ubuntuMinimalDoc = false) (h5 : s.debianVersion = false)
    (h6 : s.gentooRelease = false) (h7 : s.slackwareVersion = false)
    (h8 : s.conaryDb = false) (h9 : solarisProbe s = false) :
    detectDistro s = Except.error (DistroError.notSupported "Unknown") := by
  simp [detectDistro, h0, h1, h2, h3, h4, h5, h6, h7, h8, h9]

/-- Witness for C5: with no marker and no override, detection fails with
the label "Unknown". -/
theorem detectDistro_no_match_unknown_witness :
    detectDistro noMarkerState = Except.error (DistroError.notSupported "Unknown") :=
  detectDistro_no_match_unknown noMarkerState rfl rfl rfl rfl rfl rfl rfl rfl rfl rfl

/-- C7: when the Slackware marker is the first matching probe,
`detectDistro` raises `DistributionNotSupportedError` with the label
"Slackware" instead of returning a kind. -/
theorem detectDistro_slackware_rejected (s : SysState)
    (h0 : overrideProbe s = false) (h1 : s.suseRelease = false)
    (h2 : s.fedoraRelease = false) (h3 : s.redhatRelease = false)
    (h4 : s.ubuntuMinimalDoc = false) (h5 : s.debianVersion = false)
    (h6 : s.gentooRelease = false) (h7 : s.slackwareVersion = true) :
    detectDistro s = Except.error (DistroError.notSupported "Slackware") := by
  simp [detectDistro, h0, h1, h2, h3, h4, h5, h6, h7]

/-- Witness for C7: only the Slackware marker exists and detection fails
with the label "Slackware". -/
theorem detectDistro_slackware_rejected_witness :
    detectDistro slackwareOnlyState = Except.error (DistroError.notSupported "Slackware") :=
  detectDistro_slackware_rejected slackwareOnlyState rfl rfl rfl rfl rfl rfl rfl rfl

/-- C9: "yes" is the only affirmative value of the override variable — with
any other value (or the variable unset) detection behaves exactly as with
the variable unset, falling through to the marker probes. -/
theorem detectDistro_override_exact_yes (s : SysState)
    (h : s.certifiedGnomie ≠ some "yes") :
    detectDistro s = detectDistro {s with certifiedGnomie := none} := by
  have hov : overrideProbe s = false := by
    unfold overrideProbe
    cases hc : s.certifiedGnomie with
    | none => rfl
    | some v =>
      have hv : v ≠ "yes" := by
        intro hvy
        exact h (hvy ▸ hc)
      simp [hv]
  have hov2 : overrideProbe {s with certifiedGnomie := none} = false := rfl
  simp [detectDistro, hov, hov2, solarisProbe]

/-- Witness for C9: the value "YES" is not affirmative — with the Debian
marker present, detection with "YES" equals detection with the variable
unset. -/
theorem detectDistro_override_exact_yes_witness :
    detectDistro upperYesState = detectDistro {upperYesState with certifiedGnomie := none} :=
  detectDistro_override_exact_yes upperYesState (by decide)

/-- C6: on the Solaris backend, `getVersion` raises the not-implemented
signal inherited from the base class, for every package name, and that
signal is a different error than `PackageNotFoundError`. -/
theorem solaris_getVersion_capability_gap (packageName : String) :
    solarisGetVersion packageName = Except.error PkgError.notImplemented ∧
    ∀ n : String, PkgError.notImplemented ≠ PkgError.packageNotFound n :=
  ⟨rfl, fun _ h => by cases h⟩

/-- The append-if-non-empty strip loop of `_AptPackageDb.getFiles` equals
appending the stripped non-empty lines, in order. -/
theorem stripFold_eq (l : List String) (acc : List String) :
    l.foldl (fun files line =>
      let file := pyStrip line
      if file ≠ "" then files ++ [file] else files) acc
    = acc ++ (l.map pyStrip).filter (fun f => f ≠ "") := by
  induction l generalizing acc with
  | nil => simp
  | cons a t ih =>
    simp only [List.foldl_cons]
    rw [ih]
    by_cases h : pyStrip a = ""
    · simp [h]
    · simp [h, List.append_assoc]

/-- C10: `_AptPackageDb.getFiles` raises `PackageNotFoundError` exactly
when the `dpkg -L` output is empty; otherwise it returns the stripped
non-empty lines in output order, with no further existence check (the
result depends only on the command output). -/
theorem aptGetFiles_empty_iff (cmdOutput : List String) (name : String) :
    (aptGetFiles cmdOutput name = Except.error (PkgError.packageNotFound name) ↔
      cmdOutput = []) ∧
    (cmdOutput ≠ [] →
      aptGetFiles cmdOutput name =
        Except.ok ((cmdOutput.map pyStrip).filter (fun f => f ≠ ""))) := by
  unfold aptGetFiles
  by_cases h : cmdOutput = []
  · simp [h]
  · simp only [h, if_false]
    constructor
    · simp
    · intro
      rw [stripFold_eq]
      simp

/-- Witness for C10: two lines, one blank — the blank line is dropped and
the other is returned stripped. -/
theorem aptGetFiles_empty_iff_witness :
    aptGetFiles [" /usr/bin/a \n", "\n"] "pkg" = Except.ok ["/usr/bin/a"] :=
  ((aptGetFiles_empty_iff [" /usr/bin/a \n", "\n"] "pkg").2 (by decide)).trans rfl

/-- C4 counterexample: on the Portage backend an absent package name makes
`match(...)` return the empty list, and `getVersion` raises a raw index
error rather than `PackageNotFoundError`. -/
theorem portage_absent_raw_error_cex :
    portageGetVersion [] "nosuchpkg" = Except.error PkgError.indexError ∧
    PkgError.indexError ≠ PkgError.packageNotFound "nosuchpkg" :=
  ⟨rfl, fun h => by cases h⟩

/-- C4 amended: for a package name absent from the data source, the RPM,
APT and Conary backends raise `PackageNotFoundError`, but the Portage
backend instead propagates a raw index error. -/
theorem getVersion_not_found_amended (db : RpmDb) (cache : List AptPackage)
    (vartree : List PortageAtom) (dbVersions : List String) (name : String) :
    ((∀ h ∈ db.headers, h.name ≠ name) →
      rpmGetVersion db name = Except.error (PkgError.packageNotFound name)) ∧
    ((∀ p ∈ cache, p.name ≠ name) →
      aptGetVersion cache name = Except.error (PkgError.packageNotFound name)) ∧
    (dbVersions = [] →
      conaryGetVersion dbVersions name = Except.error (PkgError.packageNotFound name)) ∧
    ((∀ a ∈ vartree, a.name ≠ name) →
      portageGetVersion vartree name = Except.error PkgError.indexError) := by
  refine ⟨?_, ?_, ?_, ?_⟩
  · intro habs
    have hm : db.dbMatchName name = [] := by
      simp only [RpmDb.dbMatchName, List.filter_eq_nil_iff, decide_eq_true_eq]
      exact habs
    simp [rpmGetVersion, hm]
  · intro habs
    have hm : cache.find? (fun p => p.name == name) = none := by
      simp only [List.find?_eq_none, beq_iff_eq]
      exact habs
    simp [aptGetVersion, hm]
  · intro h
    simp [conaryGetVersion, h]
  · intro habs
    have hm : portageMatch vartree name = [] := by
      simp only [portageMatch, List.map_eq_nil_iff, List.filter_eq_nil_iff, decide_eq_true_eq]
      exact habs
    simp [portageGetVersion, hm]

/-- Witness for C4's amended claim: on empty data sources every backend's
absent-name behavior is as stated. -/
theorem getVersion_not_found_amended_witness :
    rpmGetVersion ⟨[]⟩ "pkg" = Except.error (PkgError.packageNotFound "pkg") ∧
    aptGetVersion [] "pkg" = Except.error (PkgError.packageNotFound "pkg") ∧
    conaryGetVersion [] "pkg" = Except.error (PkgError.packageNotFound "pkg") ∧
    portageGetVersion [] "pkg" = Except.error PkgError.indexError := by
  have h := getVersion_not_found_amended ⟨[]⟩ [] [] [] "pkg"
  exact ⟨h.1 (by simp), h.2.1 (by simp), h.2.2.1 rfl, h.2.2.2 (by simp)⟩

/-- The keys accumulated by `_AptPackageDb.getDependencies`'s loop stay
duplicate-free. -/
theorem aptDepLoop_nodup (packageName : String) :
    ∀ (cache : List AptPackage) (result : List String), result.Nodup →
      ∀ res, aptDepLoop packageName cache result = Except.ok res → res.Nodup := by
  intro cache
  induction cache with
  | nil =>
    intro result hr res h
    unfold aptDepLoop at h
    injection h with h'
    exact h' ▸ hr
  | cons package rest ih =>
    intro result hr res h
    unfold aptDepLoop at h
    split at h
    · cases hcv : package.currentVer with
      | none => rw [hcv] at h; cases h
      | some current =>
        rw [hcv] at h
        exact ih _ (foldl_invariant List.Nodup dictInsert current.depends result hr
          (fun d k _ hd => dictInsert_nodup hd k)) res h
    · exact ih result hr res h

/-- C1 counterexample: dependency lists can contain the queried name
itself — `jhbuild list foo` output naming `foo` puts "foo" into
`getDependencies("foo")`, and an apt cache entry depending on itself does
the same on the APT backend. -/
theorem getDependencies_self_cex :
    "foo" ∈ jhbuildGetDependencies ["foo\n"] "foo" ∧
    aptGetDependencies [⟨"foo", some ⟨"1.0-1", ["foo"]⟩⟩] "foo" = Except.ok ["foo"] :=
  ⟨by decide, rfl⟩

/-- C1 amended: every backend's `getDependencies` result is duplicate-free,
and the RPM backend also excludes the queried package's own name; the APT
and JhBuild backends do not filter the queried name out. -/
theorem getDependencies_dedup_amended (db : RpmDb) (cache : List AptPackage)
    (cmdOutput : List String) (name : String) :
    (∀ res, rpmGetDependencies db name = Except.ok res → res.Nodup ∧ name ∉ res) ∧
    (∀ res, aptGetDependencies cache name = Except.ok res → res.Nodup) ∧
    (jhbuildGetDependencies cmdOutput name).Nodup := by
  refine ⟨?_, ?_, ?_⟩
  · intro res hres
    unfold rpmGetDependencies at hres
    cases hm : db.dbMatchName name with
    | nil => rw [hm] at hres; cases hres
    | cons header t =>
      rw [hm] at hres
      injection hres with hres'
      refine hres' ▸ foldl_invariant (fun d => d.Nodup ∧ name ∉ d) _ header.requires []
        ⟨List.nodup_nil, List.not_mem_nil name⟩ ?_
      intro d req _ hd
      refine foldl_invariant (fun d => d.Nodup ∧ name ∉ d) _ (db.dbMatchProvides req) d hd ?_
      intro d' depHeader _ hd'
      dsimp only
      by_cases hne : depHeader.name = name
      · simp only [hne, ne_eq, not_true_eq_false, if_false]
        exact hd'
      · rw [if_pos hne]
        exact ⟨dictInsert_nodup hd'.1 _, dictInsert_not_mem hd'.2 hne⟩
  · intro res hres
    exact aptDepLoop_nodup name cache [] List.nodup_nil res hres
  · unfold jhbuildGetDependencies
    refine foldl_invariant List.Nodup _ cmdOutput [] List.nodup_nil ?_
    intro d line _ hd
    dsimp only
    split
    · exact dictInsert_nodup hd _
    · exact hd

/-- Witness for C1's amended claim, on an rpm database where "foo" requires
a capability provided by both "bar" and "foo" itself, an apt cache with a
repeated dependency, and jhbuild output with a repeated line. -/
theorem getDependencies_dedup_amended_witness :
    ((["bar"] : List String).Nodup ∧ "foo" ∉ (["bar"] : List String)) ∧
    (["a", "b"] : List String).Nodup ∧
    (jhbuildGetDependencies ["dep\n", "dep\n"] "x").Nodup := by
  have h := getDependencies_dedup_amended
    ⟨[⟨"foo", "1.0", [], ["libbar"], ["libbar"]⟩, ⟨"bar", "2.0", [], [], ["libbar"]⟩]⟩
    [⟨"x", some ⟨"1.0-1", ["a", "b", "a"]⟩⟩] ["dep\n", "dep\n"] "x"
  have h2 := getDependencies_dedup_amended
    ⟨[⟨"foo", "1.0", [], ["libbar"], ["libbar"]⟩, ⟨"bar", "2.0", [], [], ["libbar"]⟩]⟩
    [] [] "foo"
  exact ⟨h2.1 ["bar"] rfl, h.2.1 ["a", "b"] rfl, h.2.2⟩

/-- A directory in the tree walked from `top` prefixes every file path it
contributes: the path `d ++ "/" ++ f` lies beneath `top`. -/
theorem pathUnder_of_dirUnder {top d : String} (h : dirUnder top d = true) (f : String) :
    pathUnder top (d ++ "/" ++ f) = true := by
  unfold dirUnder at h
  simp only [pathUnder, List.isPrefixOf_iff_prefix, String.data_append]
  rcases Bool.or_eq_true_iff.1 h with h1 | h1
  · have hd : d = top := by simpa using h1
    subst hd
    exact List.prefix_append _ _
  · have h2 : top.data ++ ("/" : String).data <+: d.data := by
      simpa [pathUnder, List.isPrefixOf_iff_prefix, String.data_append] using h1
    refine h2.trans ?_
    rw [List.append_assoc]
    exact List.prefix_append d.data (("/" : String).data ++ f.data)

/-- Every path collected by one walk either was already collected or lies
beneath the walked top directory. -/
theorem mem_walkMoFiles {top : String} {fs : FsTree} {mo : List String} {p : String}
    (hp : p ∈ walkMoFiles top fs mo) : p ∈ mo ∨ pathUnder top p = true := by
  unfold walkMoFiles at hp
  refine foldl_invariant (fun acc => ∀ q ∈ acc, q ∈ mo ∨ pathUnder top q = true) _ fs mo
    (fun q hq => Or.inl hq) ?_ p hp
  intro d entry _ hd
  dsimp only
  split
  · next hdir =>
    refine foldl_invariant (fun acc => ∀ q ∈ acc, q ∈ mo ∨ pathUnder top q = true) _
      entry.2 d hd ?_
    intro d' fName _ hd'
    dsimp only
    split
    · intro q hq
      rcases mem_dictInsert hq with h | h
      · exact hd' q h
      · exact Or.inr (by rw [h]; exact pathUnder_of_dirUnder hdir fName)
    · exact hd'
  · exact hd

/-- C8: every path returned by `getMoFiles` for a given locale lies beneath
some configured locale-root's subdirectory for that locale — never a
sibling locale's subdirectory or the unscoped root. -/
theorem getMoFiles_locale_scoped (localeRoots : List String) (loc : String) (fs : FsTree)
    (p : String) (hp : p ∈ getMoFiles localeRoots (some loc) fs) :
    ∃ root ∈ localeRoots, pathUnder (root ++ "/" ++ loc) p = true := by
  unfold getMoFiles at hp
  refine foldl_invariant
    (fun acc => ∀ q ∈ acc, ∃ root ∈ localeRoots, pathUnder (root ++ "/" ++ loc) q = true)
    _ localeRoots [] (by simp) ?_ p hp
  intro d root hroot hd q hq
  dsimp only at hq
  rcases mem_walkMoFiles hq with h | h
  · exact hd q h
  · exact ⟨root, hroot, h⟩

/-- Witness for C8: with a locale root holding "xx" and "yy" locale
subdirectories, a path returned for locale "xx" lies beneath the root's
"xx" subdirectory. -/
theorem getMoFiles_locale_scoped_witness :
    ∃ root ∈ ["/usr/share/locale"],
      pathUnder (root ++ "/" ++ "xx") "/usr/share/locale/xx/LC_MESSAGES/app.mo" = true :=
  getMoFiles_locale_scoped ["/usr/share/locale"] "xx"
    [("/usr/share/locale/xx/LC_MESSAGES", ["app.mo"]),
     ("/usr/share/locale/yy/LC_MESSAGES", ["other.mo"])]
    "/usr/share/locale/xx/LC_MESSAGES/app.mo" (by decide)
